import Mathlib

/-!
Crud-go: a shallow embedding of `main.go`.

`main.go` is one file: two routes registered on `http.DefaultServeMux`, one
middleware, and five handlers that each run one SQL statement against the
`users(id INTEGER PRIMARY KEY, name TEXT, email TEXT)` table.

The handlers are embedded as state-passing functions over a `ResponseWriter`
value and a `DB` value.  The pieces of the Go standard library and of SQLite
that the handlers call are embedded by their documented behaviour:

* `strconv.Atoi` : optional sign, at least one decimal digit, value within the
  64-bit `int` range;
* `http.Error` : resets `Content-Type` to `text/plain; charset=utf-8`, sets
  `X-Content-Type-Options: nosniff`, writes the status and the message followed
  by a newline;
* `json.Marshal` : a nil slice is encoded as `null`, a non-nil slice as an array;
* the `users` table (`INTEGER PRIMARY KEY`, no `AUTOINCREMENT`) : rows kept in
  rowid order; a new row gets rowid 1 in an empty table, one more than the
  largest rowid otherwise, and a random unused rowid when the largest rowid is
  already 9223372036854775807;
* `http.ServeMux` : the path is cleaned first, and a request whose path is not
  clean is redirected (301) without reaching a route, unless its method is
  CONNECT.

`int` is taken to be 64 bits wide and the protocol to be HTTP/1.1 or later.
Input/output failures of the database file are outside the model.  Paths are
taken to need no URL escaping, so that the `Location` value of a redirect is
the cleaned path itself.
-/

namespace CrudGo

/-! ## Data model -/

/-- The Go struct `User` (`main.go`, lines 14-18). -/
structure User where
  ID : Int
  Name : String
  Email : String
deriving DecidableEq, Repr

/-- The database handle `db`: the rows of the `users` table in rowid order, and the 64-bit
values that the random number generator of SQLite hands out next (after the last listed value
it hands out 0).  The generator is consulted only by an insert into a table whose largest rowid
is already the maximum. -/
structure DB where
  rows : List User
  draws : List Int
deriving DecidableEq, Repr

/-- Smallest value of a 64-bit signed integer (a SQLite rowid, a Go `int`). -/
def minInt64 : Int := -9223372036854775808

/-- Largest value of a 64-bit signed integer (a SQLite rowid, a Go `int`). -/
def maxInt64 : Int := 9223372036854775807

/-- A well-formed `users` table: `id` is the primary key, so rows are stored by strictly
increasing rowid, and every rowid is a 64-bit signed integer. -/
def DB.WF (db : DB) : Prop :=
  db.rows.Pairwise (fun a b => a.ID < b.ID) ∧ ∀ u ∈ db.rows, minInt64 ≤ u.ID ∧ u.ID ≤ maxInt64

instance (db : DB) : Decidable db.WF :=
  inferInstanceAs (Decidable (_ ∧ _))

/-- The table has a row whose id is `i`. -/
def DB.hasId (db : DB) (i : Int) : Prop := ∃ u ∈ db.rows, u.ID = i

/-- The ids of the rows of the table, in row order. -/
def DB.ids (db : DB) : List Int := db.rows.map User.ID

/-! ## SQL statements issued by the handlers -/

/-- A random 64-bit value turned into a rowid candidate, as SQLite does it: the low 62 bits,
plus one; the candidate lies between 1 and 4611686018427387904. -/
def maskDraw (d : Int) : Int := d % 4611686018427387904 + 1

/-- The search for a random unused rowid: up to `n` candidates are drawn, the first that is not
a rowid of the table is taken; the result comes with the values the generator has left. -/
def probeRowid (rows : List User) : Nat → List Int → Option Int × List Int
  | 0, ds => (none, ds)
  | n + 1, ds =>
    if rows.any (fun u => u.ID = maskDraw (ds.headD 0)) then probeRowid rows n ds.tail
    else (some (maskDraw (ds.headD 0)), ds.tail)

/-- The rowid SQLite gives to a row inserted without an explicit id: 1 in an empty table,
otherwise one more than the largest rowid in the table (the last row); when the largest rowid is
already the maximum, a random unused rowid found in at most 100 draws, and none (the table is
reported full) when all 100 candidates are taken. -/
def newRowid (db : DB) : Option Int × List Int :=
  match db.rows.getLast? with
  | none => (some 1, db.draws)
  | some u =>
    if u.ID < maxInt64 then (some (u.ID + 1), db.draws) else probeRowid db.rows 100 db.draws

/-- A new row put at its place in rowid order. -/
def insertRow (x : User) : List User → List User
  | [] => [x]
  | a :: as => if x.ID < a.ID then x :: a :: as else a :: insertRow x as

/-- The statement `SELECT * FROM users`: every row, in rowid order. -/
def queryAll (db : DB) : Except String (List User) :=
  .ok db.rows

/-- The statement `SELECT * FROM users WHERE id = ?` followed by `Scan`: the row with that id,
or the error `sql.ErrNoRows`. -/
def queryRow (db : DB) (id : Int) : Except String User :=
  match db.rows.find? (fun u => u.ID = id) with
  | some u => .ok u
  | none => .error "sql: no rows in result set"

/-- The statement `INSERT INTO users (name, email) VALUES (?, ?)` followed by
`result.LastInsertId()`: the rowid the new row was given, or the error of a full table, and the
database afterwards. -/
def execInsert (db : DB) (name email : String) : Except String Int × DB :=
  match newRowid db with
  | (some v, ds) => (.ok v, ⟨insertRow ⟨v, name, email⟩ db.rows, ds⟩)
  | (none, ds) => (.error "database or disk is full", ⟨db.rows, ds⟩)

/-- The statement `UPDATE users SET name=?, email=? WHERE id=?`: every row matching the id gets
the new name and email; it is no error when no row matches. -/
def execUpdate (db : DB) (name email : String) (id : Int) : Except String DB :=
  .ok ⟨db.rows.map (fun u => if u.ID = id then { u with Name := name, Email := email } else u),
    db.draws⟩

/-- The statement `DELETE FROM users WHERE id=?`: every row matching the id is removed; it is no
error when no row matches. -/
def execDelete (db : DB) (id : Int) : Except String DB :=
  .ok ⟨db.rows.filter (fun u => u.ID ≠ id), db.draws⟩

/-! ## `strconv.Atoi` -/

/-- The value of a decimal digit byte, `none` for any other character. -/
def digitVal (c : Char) : Option Nat :=
  if 48 ≤ c.toNat ∧ c.toNat ≤ 57 then some (c.toNat - 48) else none

/-- The loop `n = n*10 + digit` over the characters, failing on the first non-digit. -/
def parseDigits : List Char → Nat → Option Nat
  | [], acc => some acc
  | c :: cs, acc =>
    match digitVal c with
    | none => none
    | some d => parseDigits cs (acc * 10 + d)

/-- An unsigned run of digits: at least one digit is required. -/
def parseUnsigned (ds : List Char) : Option Nat :=
  if ds = [] then none else parseDigits ds 0

/-- Go's `strconv.Atoi` for a 64-bit `int`: an optional `+` or `-`, then one or more decimal
digits; `none` (a syntax or range error) otherwise, and when the value does not fit. -/
def Atoi (s : String) : Option Int :=
  match s.data with
  | [] => none
  | c :: cs =>
    if c = '-' then
      match parseUnsigned cs with
      | some n => if (n : Int) ≤ 9223372036854775808 then some (-(n : Int)) else none
      | none => none
    else
      match parseUnsigned (if c = '+' then cs else c :: cs) with
      | some n => if (n : Int) ≤ maxInt64 then some (n : Int) else none
      | none => none

/-- The character of a decimal digit. -/
def digitChar (d : Nat) : Char := Char.ofNat (48 + d)

/-- The decimal digits of a natural number, most significant first (`fuel` bounds the number of
digits). -/
def natDigits : Nat → Nat → List Char
  | 0, n => [digitChar (n % 10)]
  | fuel + 1, n => if n < 10 then [digitChar n] else natDigits fuel (n / 10) ++ [digitChar (n % 10)]

/-- The decimal text of an integer, as a client writes an id into the path `/users/<id>`
(Go's `strconv.Itoa`). -/
def Itoa (i : Int) : String :=
  if i < 0 then ⟨'-' :: natDigits i.natAbs i.natAbs⟩ else ⟨natDigits i.natAbs i.natAbs⟩

/-! ## `encoding/json` -/

/-- A request body as `json.NewDecoder(r.Body).Decode(&user)` sees it: either decoding fails, or
it leaves `user` holding the given value (a field missing from the body keeps its zero value, so
a body without `id` gives `ID = 0`). -/
inductive ReqBody where
  | invalid
  | decodes (u : User)
deriving DecidableEq, Repr

/-- The call `json.NewDecoder(r.Body).Decode(&user)`. -/
def jsonDecode : ReqBody → Except String User
  | .invalid => .error "invalid character"
  | .decodes u => .ok u

/-- The JSON texts the handlers produce with `json.Marshal`. -/
inductive Json where
  | null
  | object (u : User)
  | array (us : List User)
deriving DecidableEq, Repr

/-- A Go slice `[]User`: `none` is the nil slice that `var users []User` declares. -/
abbrev Slice := Option (List User)

/-- Go's built-in `append(users, user)`: appending to a nil slice allocates. -/
def goAppend : Slice → User → Slice
  | none, u => some [u]
  | some l, u => some (l ++ [u])

/-- The call `json.Marshal(user)` on a `User`: the object with the keys `id`, `name`, `email`. -/
def marshalUser (u : User) : Except String Json := .ok (.object u)

/-- The call `json.Marshal(users)` on a `[]User`: a nil slice encodes as the JSON value `null`,
any other slice as an array. -/
def marshalUsers : Slice → Except String Json
  | none => .ok .null
  | some l => .ok (.array l)

/-- The text of a JSON value; `q` is the encoder's rendering of a string literal. -/
def Json.text (q : String → String) : Json → String
  | .null => "null"
  | .object u =>
    "\x7b\"id\":" ++ toString u.ID ++ ",\"name\":" ++ q u.Name ++ ",\"email\":" ++ q u.Email ++ "\x7d"
  | .array us =>
    "[" ++ ",".intercalate (us.map fun u =>
      "\x7b\"id\":" ++ toString u.ID ++ ",\"name\":" ++ q u.Name ++ ",\"email\":" ++ q u.Email ++ "\x7d")
      ++ "]"

/-! ## `net/http` -/

/-- Response headers, as an association list. -/
abbrev Header := List (String × String)

/-- The method `Header.Del`. -/
def Header.Del (h : Header) (k : String) : Header := h.filter (fun p => p.1 ≠ k)

/-- The method `Header.Set`: replaces any value the key had. -/
def Header.Set (h : Header) (k v : String) : Header := (k, v) :: Header.Del h k

/-- The method `Header.Get`. -/
def Header.Get (h : Header) (k : String) : Option String :=
  (h.find? (fun p => p.1 = k)).map Prod.snd

/-- What a handler writes to the response body in one `Write`. -/
inductive Payload where
  | text (s : String)
  | json (j : Json)
deriving DecidableEq, Repr

/-- The state of an `http.ResponseWriter`: the header map, whether the status line went out, the
status and headers that went out with it, and the body written so far. -/
structure ResponseWriter where
  header : Header
  wroteHeader : Bool
  status : Nat
  sentHeader : Header
  body : List Payload
deriving DecidableEq, Repr

/-- An incoming request: method, `r.URL.Path`, and body. -/
structure Request where
  Method : String
  Path : String
  Body : ReqBody
deriving DecidableEq, Repr

/-- The response a client receives. -/
structure Response where
  status : Nat
  header : Header
  body : List Payload
deriving DecidableEq, Repr

/-- The method `w.WriteHeader(code)`: sends the status with the headers as they are now; a
second call changes nothing. -/
def WriteHeader (w : ResponseWriter) (code : Nat) : ResponseWriter :=
  if w.wroteHeader then w
  else { w with wroteHeader := true, status := code, sentHeader := w.header }

/-- The method `w.Write(data)`: sends status 200 first when no status went out yet. -/
def Write (w : ResponseWriter) (p : Payload) : ResponseWriter :=
  let w1 := WriteHeader w 200
  { w1 with body := w1.body ++ [p] }

/-- The function `http.Error(w, msg, code)`. -/
def httpError (w : ResponseWriter) (msg : String) (code : Nat) : ResponseWriter :=
  let h := Header.Set (Header.Set (Header.Del w.header "Content-Length")
    "Content-Type" "text/plain; charset=utf-8") "X-Content-Type-Options" "nosniff"
  Write (WriteHeader { w with header := h } code) (.text (msg ++ "\n"))

/-- A handler taking the database handle: it updates the writer and the table. -/
abbrev Handler := ResponseWriter → Request → DB → ResponseWriter × DB

/-- The Go slice expression `s[n:]` on a string whose first `n` bytes are ASCII. -/
def sliceFrom (s : String) (n : Nat) : String := ⟨s.data.drop n⟩

/-! ## The handlers of `main.go` -/

/-- `getUsers` (`main.go`, lines 74-102). -/
def getUsers : Handler := fun w _ db =>
  match queryAll db with
  | .error e => (httpError w e 500, db)
  | .ok rows =>
    let users : Slice := rows.foldl goAppend none
    match marshalUsers users with
    | .error e => (httpError w e 500, db)
    | .ok response => (Write (WriteHeader w 200) (.json response), db)

/-- `getUser` (`main.go`, lines 105-131). -/
def getUser : Handler := fun w r db =>
  let idStr := sliceFrom r.Path "/users/".length
  match Atoi idStr with
  | none => (httpError w "Invalid user ID" 400, db)
  | some id =>
    match queryRow db id with
    | .error _ => (httpError w "User not found" 404, db)
    | .ok user =>
      match marshalUser user with
      | .error e => (httpError w e 500, db)
      | .ok response => (Write (WriteHeader w 200) (.json response), db)

/-- `createUser` (`main.go`, lines 134-168). -/
def createUser : Handler := fun w r db =>
  match jsonDecode r.Body with
  | .error _ => (httpError w "Invalid request body" 400, db)
  | .ok user =>
    match execInsert db user.Name user.Email with
    | (.error e, db1) => (httpError w e 500, db1)
    | (.ok lastInsertID, db1) =>
      let user := { user with ID := lastInsertID }
      match marshalUser user with
      | .error e => (httpError w e 500, db1)
      | .ok response => (Write (WriteHeader w 201) (.json response), db1)

/-- `updateUser` (`main.go`, lines 171-196). -/
def updateUser : Handler := fun w r db =>
  let idStr := sliceFrom r.Path "/users/".length
  match Atoi idStr with
  | none => (httpError w "Invalid user ID" 400, db)
  | some id =>
    match jsonDecode r.Body with
    | .error _ => (httpError w "Invalid request body" 400, db)
    | .ok user =>
      match execUpdate db user.Name user.Email id with
      | .error e => (httpError w e 500, db)
      | .ok db1 => (WriteHeader w 200, db1)

/-- `deleteUser` (`main.go`, lines 199-216). -/
def deleteUser : Handler := fun w r db =>
  let idStr := sliceFrom r.Path "/users/".length
  match Atoi idStr with
  | none => (httpError w "Invalid user ID" 400, db)
  | some id =>
    match execDelete db id with
    | .error e => (httpError w e 500, db)
    | .ok db1 => (WriteHeader w 200, db1)

/-- The route registered for the pattern `/users` (`main.go`, lines 35-45). -/
def usersRoute : Handler := fun w r db =>
  if r.Method = "GET" then getUsers w r db
  else if r.Method = "POST" then createUser w r db
  else (httpError w "Method not allowed" 405, db)

/-- The route registered for the pattern `/users/` (`main.go`, lines 48-59). -/
def userRoute : Handler := fun w r db =>
  if r.Method = "GET" then getUser w r db
  else if r.Method = "PUT" then updateUser w r db
  else if r.Method = "DELETE" then deleteUser w r db
  else (httpError w "Method not allowed" 405, db)

/-- Splits a path at every slash. -/
def splitSlash : List Char → List (List Char)
  | [] => [[]]
  | c :: cs =>
    if c = '/' then [] :: splitSlash cs
    else
      match splitSlash cs with
      | [] => [[c]]
      | e :: es => (c :: e) :: es

/-- The elements of a rooted path that `path.Clean` keeps: empty and `.` elements are dropped,
a `..` element drops the element kept before it (and is dropped itself at the root). -/
def cleanElems : List (List Char) → List (List Char) → List (List Char)
  | [], kept => kept.reverse
  | e :: es, kept =>
    if e = [] ∨ e = ['.'] then cleanElems es kept
    else if e = ['.', '.'] then cleanElems es kept.tail
    else cleanElems es (e :: kept)

/-- Go's `path.Clean` on a rooted path. -/
def pathClean (p : List Char) : List Char :=
  '/' :: ['/'].intercalate (cleanElems (splitSlash p) [])

/-- The function `cleanPath` of `net/http`: the canonical form of a request path, rooted, without
empty, `.` or `..` elements, keeping a trailing slash. -/
def cleanPath (p : String) : String :=
  if p.data = [] then "/"
  else
    let p1 := if p.data.head? = some '/' then p.data else '/' :: p.data
    let np := pathClean p1
    if p1.getLast? = some '/' ∧ np ≠ ['/'] then ⟨np ++ ['/']⟩ else ⟨np⟩

/-- The escaping of `net/http` for text placed in HTML. -/
def htmlEscape (s : String) : String :=
  ⟨s.data.flatMap fun c =>
    if c = '&' then "&amp;".data
    else if c = '<' then "&lt;".data
    else if c = '>' then "&gt;".data
    else if c = Char.ofNat 34 then "&#34;".data
    else if c = Char.ofNat 39 then "&#39;".data
    else [c]⟩

/-- The function `http.Redirect(w, r, url, 301)` for a rooted, clean `url`: sets `Location`;
when no `Content-Type` was set before, a GET or HEAD request gets `text/html` and a GET request
a short HTML note as body. -/
def httpRedirect (w : ResponseWriter) (r : Request) (url : String) : ResponseWriter :=
  let hadCT := (Header.Get w.header "Content-Type").isSome
  let h1 := Header.Set w.header "Location" url
  let h2 := if ¬ hadCT ∧ (r.Method = "GET" ∨ r.Method = "HEAD") then
      Header.Set h1 "Content-Type" "text/html; charset=utf-8" else h1
  let w1 := WriteHeader { w with header := h2 } 301
  if ¬ hadCT ∧ r.Method = "GET" then
    Write w1 (.text ("<a href=\"" ++ htmlEscape url ++ "\">Moved Permanently</a>.\n" ++ "\n"))
  else w1

/-- The default mux with the two registered patterns.  A request for `*` is answered 400.  For
every method but CONNECT the path is cleaned first, and a path that was not clean is answered
with a redirect to the cleaned path, whatever it matches.  Then `/users` matches that path only,
`/users/` matches every path it is a prefix of, and anything else gets `http.NotFound`. -/
def DefaultServeMux : Handler := fun w r db =>
  if r.Path = "*" then
    (WriteHeader { w with header := Header.Set w.header "Connection" "close" } 400, db)
  else if r.Method ≠ "CONNECT" ∧ cleanPath r.Path ≠ r.Path then
    (httpRedirect w r (cleanPath r.Path), db)
  else if r.Path = "/users" then usersRoute w r db
  else if "/users/".data.isPrefixOf r.Path.data then userRoute w r db
  else (httpError w "404 page not found" 404, db)

/-- `JSONContentTypeMiddleware` (`main.go`, lines 66-71). -/
def JSONContentTypeMiddleware (next : Handler) : Handler := fun w r db =>
  next { w with header := Header.Set w.header "Content-Type" "application/json" } r db

/-- The writer the server hands to a handler: nothing set, nothing sent. -/
def newWriter : ResponseWriter :=
  { header := [], wroteHeader := false, status := 0, sentHeader := [], body := [] }

/-- What the server sends once the handler returns: a handler that never wrote a status gets
status 200. -/
def finish (w : ResponseWriter) : Response :=
  let w1 := WriteHeader w 200
  { status := w1.status, header := w1.sentHeader, body := w1.body }

/-- One request served by handler `h` behind `JSONContentTypeMiddleware`, as `main` wires it:
the response and the table afterwards. -/
def respond (h : Handler) (db : DB) (r : Request) : Response × DB :=
  let out := JSONContentTypeMiddleware h newWriter r db
  (finish out.1, out.2)

/-- The server of `main`: `http.ListenAndServe(":8000", JSONContentTypeMiddleware(mux))`. -/
def serve (db : DB) (r : Request) : Response × DB :=
  respond DefaultServeMux db r

/-- The JSON value a response carries, when its body is exactly one `json.Marshal` output. -/
def Response.json? (resp : Response) : Option Json :=
  match resp.body with
  | [.json j] => some j
  | _ => none

/-- The user a response carries, when its body is exactly one JSON object. -/
def Response.user? (resp : Response) : Option User :=
  match resp.body with
  | [.json (.object u)] => some u
  | _ => none

/-- The `Content-Type` header of a response. -/
def Response.contentType (resp : Response) : Option String :=
  Header.Get resp.header "Content-Type"

/-- A run of `createUser` requests, one after the other: the responses and the final table. -/
def createAll : DB → List ReqBody → List Response × DB
  | db, [] => ([], db)
  | db, b :: bs =>
    let out := respond createUser db ⟨"POST", "/users", b⟩
    let rest := createAll out.2 bs
    (out.1 :: rest.1, rest.2)

/-- The bytes of one `Write`; `q` is the JSON encoder's rendering of a string literal. -/
def Payload.bytes (q : String → String) : Payload → String
  | .text s => s
  | .json j => j.text q

/-- The whole body of a response as text. -/
def Response.bodyText (q : String → String) (resp : Response) : String :=
  String.join (resp.body.map (Payload.bytes q))

/-- The headers of a response that a handler completes itself, behind the middleware. -/
def jsonHeader : Header := [("Content-Type", "application/json")]

/-- The headers of a response that `http.Error` completes, behind the middleware. -/
def errorHeader : Header :=
  [("X-Content-Type-Options", "nosniff"), ("Content-Type", "text/plain; charset=utf-8")]

/-- The response that `http.Error(w, msg, code)` alone produces behind the middleware. -/
def errorResponse (msg : String) (code : Nat) : Response :=
  { status := code, header := errorHeader, body := [.text (msg ++ "\n")] }

/-- The writer a handler receives from `JSONContentTypeMiddleware`. -/
def jsonWriter : ResponseWriter :=
  { newWriter with header := Header.Set newWriter.header "Content-Type" "application/json" }

instance (db : DB) (i : Int) : Decidable (db.hasId i) :=
  inferInstanceAs (Decidable (∃ u ∈ db.rows, u.ID = i))

/-- The 201 response of `createUser` that carries the user `u`. -/
def createdResponse (u : User) : Response :=
  { status := 201, header := jsonHeader, body := [.json (.object u)] }

/-! ## Decimal text: `Atoi` reads back what `Itoa` writes -/

theorem digitVal_digitChar (d : Nat) (h : d < 10) : digitVal (digitChar d) = some d := by
  interval_cases d <;> rfl

theorem parseDigits_append (ds : List Char) (c : Char) (acc : Nat) :
    parseDigits (ds ++ [c]) acc =
      (parseDigits ds acc).bind (fun a => (digitVal c).map (fun d => a * 10 + d)) := by
  induction ds generalizing acc with
  | nil =>
    cases h : digitVal c <;> simp [parseDigits, h]
  | cons x xs ih =>
    cases h : digitVal x with
    | none => simp [parseDigits, h]
    | some d => simp [parseDigits, h, ih]

theorem natDigits_ne_nil (fuel n : Nat) : natDigits fuel n ≠ [] := by
  cases fuel with
  | zero => simp [natDigits]
  | succ k =>
    unfold natDigits
    split <;> simp

theorem parseDigits_natDigits (fuel n : Nat) (h : n ≤ fuel) :
    parseDigits (natDigits fuel n) 0 = some n := by
  induction fuel generalizing n with
  | zero =>
    have hn : n = 0 := by omega
    subst hn
    rfl
  | succ k ih =>
    unfold natDigits
    split
    · rename_i hlt
      simp [parseDigits, digitVal_digitChar n hlt]
    · rename_i hge
      have hk : n / 10 ≤ k := by omega
      rw [parseDigits_append, ih (n / 10) hk, digitVal_digitChar (n % 10) (by omega)]
      simp
      omega

theorem natDigits_all_digits (fuel n : Nat) :
    ∀ c ∈ natDigits fuel n, ∃ d, d < 10 ∧ c = digitChar d := by
  induction fuel generalizing n with
  | zero =>
    intro c hc
    simp [natDigits] at hc
    exact ⟨n % 10, by omega, hc⟩
  | succ k ih =>
    intro c hc
    unfold natDigits at hc
    split at hc
    · rename_i hlt
      simp at hc
      exact ⟨n, hlt, hc⟩
    · simp at hc
      rcases hc with hc | hc
      · exact ih _ c hc
      · exact ⟨n % 10, by omega, hc⟩

theorem digitChar_ne_sign (d : Nat) (h : d < 10) : digitChar d ≠ '-' ∧ digitChar d ≠ '+' := by
  interval_cases d <;> decide

theorem Atoi_natDigits (n : Nat) (h : (n : Int) ≤ maxInt64) :
    Atoi ⟨natDigits n n⟩ = some (n : Int) := by
  have hp := parseDigits_natDigits n n le_rfl
  have hne := natDigits_ne_nil n n
  have hall := natDigits_all_digits n n
  cases hd : natDigits n n with
  | nil => exact absurd hd hne
  | cons c cs =>
    rw [hd] at hp hall
    obtain ⟨d, hd10, hcd⟩ := hall c (by simp)
    have hs := digitChar_ne_sign d hd10
    rw [← hcd] at hs
    simp [Atoi, hs.1, hs.2, parseUnsigned, hp, h]

theorem Atoi_neg_natDigits (n : Nat) (h : (n : Int) ≤ 9223372036854775808) :
    Atoi ⟨'-' :: natDigits n n⟩ = some (-(n : Int)) := by
  have hp := parseDigits_natDigits n n le_rfl
  have hne := natDigits_ne_nil n n
  simp [Atoi, parseUnsigned, hne, hp, h]

/-- Reading back the decimal text of a 64-bit integer gives that integer. -/
theorem Atoi_Itoa (i : Int) (hlo : minInt64 ≤ i) (hhi : i ≤ maxInt64) : Atoi (Itoa i) = some i := by
  unfold Itoa
  split
  · rename_i hneg
    have h1 : ((i.natAbs : Nat) : Int) = -i := by omega
    rw [Atoi_neg_natDigits _ (by rw [h1]; unfold minInt64 at hlo; omega), h1]
    simp
  · rename_i hpos
    have h1 : ((i.natAbs : Nat) : Int) = i := by omega
    rw [Atoi_natDigits _ (by rw [h1]; exact hhi), h1]

/-! ## The writer and the path -/

theorem finish_httpError (msg : String) (code : Nat) :
    finish (httpError jsonWriter msg code) = errorResponse msg code := by
  simp [finish, httpError, Write, WriteHeader, jsonWriter, newWriter, errorResponse, errorHeader,
    Header.Set, Header.Del]

theorem finish_writeHeader (code : Nat) :
    finish (WriteHeader jsonWriter code) = ⟨code, jsonHeader, []⟩ := by
  simp [finish, WriteHeader, jsonWriter, newWriter, jsonHeader, Header.Set, Header.Del]

theorem finish_write (code : Nat) (p : Payload) :
    finish (Write (WriteHeader jsonWriter code) p) = ⟨code, jsonHeader, [p]⟩ := by
  simp [finish, Write, WriteHeader, jsonWriter, newWriter, jsonHeader, Header.Set, Header.Del]

theorem respond_eq (h : Handler) (db : DB) (r : Request) :
    respond h db r = (finish (h jsonWriter r db).1, (h jsonWriter r db).2) := rfl

theorem sliceFrom_users (s : String) : sliceFrom ("/users/" ++ s) "/users/".length = s := by
  have h : ("/users/" ++ s).data = "/users/".data ++ s.data := String.data_append _ _
  unfold sliceFrom
  rw [h]
  have hl : "/users/".length = "/users/".data.length := rfl
  rw [hl, List.drop_left]

/-! ## What each handler answers -/

theorem respond_getUser_invalid (db : DB) (m s : String) (b : ReqBody) (h : Atoi s = none) :
    respond getUser db ⟨m, "/users/" ++ s, b⟩ = (errorResponse "Invalid user ID" 400, db) := by
  simp [respond_eq, getUser, sliceFrom_users, h, finish_httpError]

theorem respond_getUser_missing (db : DB) (m s : String) (b : ReqBody) (id : Int)
    (h : Atoi s = some id) (hf : db.rows.find? (fun u => u.ID = id) = none) :
    respond getUser db ⟨m, "/users/" ++ s, b⟩ = (errorResponse "User not found" 404, db) := by
  simp only [respond_eq, getUser, sliceFrom_users, h, queryRow, hf, finish_httpError]

theorem respond_getUser_found (db : DB) (m s : String) (b : ReqBody) (id : Int) (u : User)
    (h : Atoi s = some id) (hf : db.rows.find? (fun u => u.ID = id) = some u) :
    respond getUser db ⟨m, "/users/" ++ s, b⟩ = (⟨200, jsonHeader, [.json (.object u)]⟩, db) := by
  simp only [respond_eq, getUser, sliceFrom_users, h, queryRow, hf, marshalUser, finish_write]

theorem respond_createUser_ok (db : DB) (m p : String) (u : User) (v : Int) (ds : List Int)
    (h : newRowid db = (some v, ds)) :
    respond createUser db ⟨m, p, .decodes u⟩ =
      (createdResponse ⟨v, u.Name, u.Email⟩, ⟨insertRow ⟨v, u.Name, u.Email⟩ db.rows, ds⟩) := by
  simp only [respond_eq, createUser, jsonDecode, execInsert, h, marshalUser, finish_write,
    createdResponse]

theorem respond_createUser_full (db : DB) (m p : String) (u : User) (ds : List Int)
    (h : newRowid db = (none, ds)) :
    respond createUser db ⟨m, p, .decodes u⟩ =
      (errorResponse "database or disk is full" 500, ⟨db.rows, ds⟩) := by
  simp only [respond_eq, createUser, jsonDecode, execInsert, h, finish_httpError]

theorem respond_updateUser_ok (db : DB) (m s : String) (u : User) (id : Int)
    (h : Atoi s = some id) :
    respond updateUser db ⟨m, "/users/" ++ s, .decodes u⟩ =
      (⟨200, jsonHeader, []⟩,
        ⟨db.rows.map (fun x => if x.ID = id then { x with Name := u.Name, Email := u.Email }
          else x), db.draws⟩) := by
  simp only [respond_eq, updateUser, sliceFrom_users, h, jsonDecode, execUpdate,
    finish_writeHeader]

theorem respond_deleteUser_ok (db : DB) (m s : String) (b : ReqBody) (id : Int)
    (h : Atoi s = some id) :
    respond deleteUser db ⟨m, "/users/" ++ s, b⟩ =
      (⟨200, jsonHeader, []⟩, ⟨db.rows.filter (fun x => x.ID ≠ id), db.draws⟩) := by
  simp only [respond_eq, deleteUser, sliceFrom_users, h, execDelete, finish_writeHeader]

theorem respond_getUsers (db : DB) (r : Request) :
    respond getUsers db r =
      (⟨200, jsonHeader,
        [.json (match db.rows.foldl goAppend none with
          | none => Json.null
          | some l => Json.array l)]⟩, db) := by
  simp only [respond_eq, getUsers, queryAll]
  cases db.rows.foldl goAppend none <;> simp only [marshalUsers, finish_write]

/-! ## The table -/

theorem find_none_of_not_hasId (db : DB) (i : Int) (h : ¬ db.hasId i) :
    db.rows.find? (fun u => u.ID = i) = none := by
  rw [List.find?_eq_none]
  intro u hu
  simp only [decide_eq_true_eq]
  intro hi
  exact h ⟨u, hu, hi⟩

theorem maskDraw_range (d : Int) : 1 ≤ maskDraw d ∧ maskDraw d ≤ 4611686018427387904 := by
  unfold maskDraw
  have h1 : 0 ≤ d % 4611686018427387904 := Int.emod_nonneg d (by decide)
  have h2 : d % 4611686018427387904 < 4611686018427387904 := Int.emod_lt_of_pos d (by decide)
  constructor <;> omega

theorem probeRowid_some (rows : List User) (n : Nat) (ds ds1 : List Int) (v : Int)
    (h : probeRowid rows n ds = (some v, ds1)) :
    (∀ u ∈ rows, u.ID ≠ v) ∧ 1 ≤ v ∧ v ≤ 4611686018427387904 := by
  induction n generalizing ds with
  | zero => simp [probeRowid] at h
  | succ k ih =>
    unfold probeRowid at h
    split at h
    · exact ih _ h
    · rename_i hany
      simp only [Prod.mk.injEq, Option.some.injEq] at h
      rw [← h.1]
      refine ⟨?_, maskDraw_range _⟩
      intro u hu hui
      apply hany
      rw [List.any_eq_true]
      exact ⟨u, hu, by simpa using hui⟩

theorem newRowid_fresh (db : DB) (v : Int) (ds : List Int)
    (hs : db.rows.Pairwise (fun a b => a.ID < b.ID)) (h : newRowid db = (some v, ds)) :
    ∀ u ∈ db.rows, u.ID ≠ v := by
  rcases List.eq_nil_or_concat db.rows with hnil | ⟨l, x, hx⟩
  · rw [hnil]
    simp
  · rw [List.concat_eq_append] at hx
    have hlast : db.rows.getLast? = some x := by rw [hx]; simp
    simp only [newRowid, hlast] at h
    split at h
    · simp only [Prod.mk.injEq, Option.some.injEq] at h
      rw [hx, List.pairwise_append] at hs
      intro u hu
      rw [hx, List.mem_append, List.mem_singleton] at hu
      rcases hu with hu | hu
      · have := hs.2.2 u hu x (List.mem_singleton_self x)
        omega
      · subst hu
        omega
    · exact (probeRowid_some db.rows 100 db.draws ds v h).1

theorem newRowid_range (db : DB) (v : Int) (ds : List Int)
    (hr : ∀ u ∈ db.rows, minInt64 ≤ u.ID ∧ u.ID ≤ maxInt64) (h : newRowid db = (some v, ds)) :
    minInt64 ≤ v ∧ v ≤ maxInt64 := by
  unfold newRowid at h
  split at h
  · simp only [Prod.mk.injEq, Option.some.injEq] at h
    rw [← h.1]
    decide
  · rename_i u hu
    have hmem : u ∈ db.rows := List.mem_of_getLast?_eq_some hu
    have hlo := (hr u hmem).1
    split at h
    · simp only [Prod.mk.injEq, Option.some.injEq] at h
      unfold minInt64 at *
      unfold maxInt64 at *
      omega
    · have hp := (probeRowid_some db.rows 100 db.draws ds v h).2
      unfold minInt64 maxInt64
      omega

theorem find_insertRow (rows : List User) (x : User) (h : ∀ u ∈ rows, u.ID ≠ x.ID) :
    (insertRow x rows).find? (fun u => u.ID = x.ID) = some x := by
  induction rows with
  | nil => simp [insertRow]
  | cons a as ih =>
    have ha : a.ID ≠ x.ID := h a (List.mem_cons_self a as)
    unfold insertRow
    split
    · simp
    · simp only [List.find?_cons, ha, decide_False]
      exact ih (fun u hu => h u (List.mem_cons_of_mem a hu))

theorem insertRow_perm (rows : List User) (x : User) : (insertRow x rows).Perm (x :: rows) := by
  induction rows with
  | nil => exact List.Perm.refl _
  | cons a as ih =>
    unfold insertRow
    split
    · exact List.Perm.refl _
    · exact (List.Perm.cons a ih).trans (List.Perm.swap x a as)

theorem insertRow_sorted (rows : List User) (x : User)
    (hs : rows.Pairwise (fun a b => a.ID < b.ID)) (h : ∀ u ∈ rows, u.ID ≠ x.ID) :
    (insertRow x rows).Pairwise (fun a b => a.ID < b.ID) := by
  induction rows with
  | nil => simp [insertRow]
  | cons a as ih =>
    rw [List.pairwise_cons] at hs
    unfold insertRow
    split
    · rename_i hlt
      rw [List.pairwise_cons]
      refine ⟨?_, List.pairwise_cons.mpr hs⟩
      intro b hb
      rw [List.mem_cons] at hb
      rcases hb with hb | hb
      · rw [hb]
        exact hlt
      · have := hs.1 b hb
        omega
    · rename_i hge
      have ha : a.ID ≠ x.ID := h a (List.mem_cons_self a as)
      rw [List.pairwise_cons]
      refine ⟨?_, ih hs.2 (fun u hu => h u (List.mem_cons_of_mem a hu))⟩
      intro b hb
      have hb1 := (insertRow_perm as x).subset hb
      rw [List.mem_cons] at hb1
      rcases hb1 with hb1 | hb1
      · rw [hb1]
        omega
      · exact hs.1 b hb1

theorem insert_WF (db : DB) (v : Int) (ds : List Int) (n e : String) (hwf : db.WF)
    (h : newRowid db = (some v, ds)) : DB.WF ⟨insertRow ⟨v, n, e⟩ db.rows, ds⟩ := by
  constructor
  · exact insertRow_sorted db.rows ⟨v, n, e⟩ hwf.1 (newRowid_fresh db v ds hwf.1 h)
  · intro u hu
    have hu1 := (insertRow_perm db.rows ⟨v, n, e⟩).subset hu
    rw [List.mem_cons] at hu1
    rcases hu1 with hu1 | hu1
    · rw [hu1]
      exact newRowid_range db v ds hwf.2 h
    · exact hwf.2 u hu1

/-! ## Create, then get -/

/-- C1. Create/get round trip: on a well-formed table, when `createUser` on a body that decodes
to name `n` and email `e` (whatever `id` the body gives) answers 201 with a user whose id is
`i`, then `getUser` on the path `/users/i`, run on the table that `createUser` left, answers 200
with the user `(i, n, e)` and leaves that table as it is. -/
theorem create_then_get (db : DB) (hwf : db.WF) (m p : String) (bodyId : Int) (n e : String)
    (i : Int) (gm : String) (gb : ReqBody)
    (h201 : (respond createUser db ⟨m, p, .decodes ⟨bodyId, n, e⟩⟩).1.status = 201)
    (hid : ((respond createUser db ⟨m, p, .decodes ⟨bodyId, n, e⟩⟩).1.user?).map User.ID
      = some i) :
    respond getUser (respond createUser db ⟨m, p, .decodes ⟨bodyId, n, e⟩⟩).2
        ⟨gm, "/users/" ++ Itoa i, gb⟩ =
      (⟨200, jsonHeader, [.json (.object ⟨i, n, e⟩)]⟩,
        (respond createUser db ⟨m, p, .decodes ⟨bodyId, n, e⟩⟩).2) := by
  rcases hnr : newRowid db with ⟨o, ds⟩
  cases o with
  | none =>
    rw [respond_createUser_full db m p _ ds hnr] at h201
    exact absurd h201 (by simp [errorResponse])
  | some v =>
    rw [respond_createUser_ok db m p _ v ds hnr] at hid ⊢
    simp only [createdResponse, Response.user?, Option.map_some', Option.some.injEq] at hid
    subst hid
    have hr := newRowid_range db v ds hwf.2 hnr
    exact respond_getUser_found _ gm (Itoa v) gb v ⟨v, n, e⟩ (Atoi_Itoa v hr.1 hr.2)
      (find_insertRow db.rows ⟨v, n, e⟩ (newRowid_fresh db v ds hwf.1 hnr))

theorem create_then_get_witness :
    DB.WF ⟨[⟨1, "Ana", "ana@x.com"⟩, ⟨9223372036854775807, "Cy", "cy@x.com"⟩], [0, 41]⟩ ∧
    respond getUser (respond createUser
        ⟨[⟨1, "Ana", "ana@x.com"⟩, ⟨9223372036854775807, "Cy", "cy@x.com"⟩], [0, 41]⟩
        ⟨"POST", "/users", .decodes ⟨7, "Bo", "bo@x.com"⟩⟩).2
        ⟨"GET", "/users/" ++ Itoa 42, .invalid⟩ =
      (⟨200, jsonHeader, [.json (.object ⟨42, "Bo", "bo@x.com"⟩)]⟩,
        (respond createUser
          ⟨[⟨1, "Ana", "ana@x.com"⟩, ⟨9223372036854775807, "Cy", "cy@x.com"⟩], [0, 41]⟩
          ⟨"POST", "/users", .decodes ⟨7, "Bo", "bo@x.com"⟩⟩).2) :=
  ⟨by decide,
    create_then_get
      ⟨[⟨1, "Ana", "ana@x.com"⟩, ⟨9223372036854775807, "Cy", "cy@x.com"⟩], [0, 41]⟩
      (by decide) "POST" "/users" 7 "Bo" "bo@x.com" 42 "GET" .invalid (by decide) (by decide)⟩

/-! ## Listing an empty table -/

/-- C2. On a table with no rows `getUsers` answers 200, and the body it writes is the text
`null` (the encoding of the nil slice that the loop never appended to), not the text `[]`. -/
theorem getUsers_empty_is_null (d : List Int) (r : Request) (q : String → String) :
    (respond getUsers ⟨[], d⟩ r).1.status = 200 ∧
    (respond getUsers ⟨[], d⟩ r).1.json? = some Json.null ∧
    (respond getUsers ⟨[], d⟩ r).1.bodyText q = "null" ∧
    (respond getUsers ⟨[], d⟩ r).1.bodyText q ≠ "[]" ∧
    (respond getUsers ⟨[], d⟩ r).2 = ⟨[], d⟩ := by
  rw [respond_getUsers]
  refine ⟨rfl, rfl, rfl, ?_, rfl⟩
  show "null" ≠ "[]"
  decide

/-! ## Content type -/

/-- C3. The response to `GET /users/abc` is the 400 that `getUser` produces through
`http.Error` behind `JSONContentTypeMiddleware`: it carries
`Content-Type: text/plain; charset=utf-8`, not the `application/json` that the middleware
set. -/
theorem json_content_type_not_on_errors :
    (serve ⟨[], []⟩ ⟨"GET", "/users/abc", .invalid⟩).1.status = 400 ∧
    (serve ⟨[], []⟩ ⟨"GET", "/users/abc", .invalid⟩).1.contentType
      = some "text/plain; charset=utf-8" ∧
    (serve ⟨[], []⟩ ⟨"GET", "/users/abc", .invalid⟩).1.contentType
      ≠ some "application/json" := by
  decide

/-! ## Get by id: the failures -/

theorem parseDigits_all_digits (ds : List Char) (acc n : Nat) (h : parseDigits ds acc = some n) :
    ∀ c ∈ ds, digitVal c ≠ none := by
  induction ds generalizing acc with
  | nil => simp
  | cons x xs ih =>
    cases hx : digitVal x with
    | none => simp [parseDigits, hx] at h
    | some d =>
      simp only [parseDigits, hx] at h
      intro c hc
      rw [List.mem_cons] at hc
      rcases hc with hc | hc
      · subst hc
        simp [hx]
      · exact ih _ h c hc

theorem parseUnsigned_slash (ds : List Char) (h : '/' ∈ ds) : parseUnsigned ds = none := by
  unfold parseUnsigned
  split
  · rfl
  · cases hp : parseDigits ds 0 with
    | none => rfl
    | some n => exact absurd (by decide) (parseDigits_all_digits ds 0 n hp '/' h)

theorem Atoi_slash (s : String) (h : '/' ∈ s.data) : Atoi s = none := by
  unfold Atoi
  cases hd : s.data with
  | nil => rfl
  | cons c cs =>
    rw [hd, List.mem_cons] at h
    by_cases hm : c = '-'
    · have hcs : '/' ∈ cs := by
        rcases h with h | h
        · rw [hm] at h
          exact absurd h (by decide)
        · exact h
      simp [hm, parseUnsigned_slash cs hcs]
    · by_cases hp : c = '+'
      · have hcs : '/' ∈ cs := by
          rcases h with h | h
          · rw [hp] at h
            exact absurd h (by decide)
          · exact h
        simp [hp, parseUnsigned_slash cs hcs]
      · have hcs : '/' ∈ c :: cs := by
          rw [List.mem_cons]
          exact h
        simp [hm, hp, parseUnsigned_slash (c :: cs) hcs]

/-- C4. Get-by-id failures, for every table and every path `/users/<s>`: when the segment `s`
does not parse as an integer `getUser` answers 400 through `http.Error`; when `s` parses as an
id that no row has it answers 404; either way the table is unchanged.  The empty segment and
any segment with a further slash do not parse. -/
theorem getUser_failures (db : DB) (m s : String) (b : ReqBody) :
    (Atoi s = none →
      respond getUser db ⟨m, "/users/" ++ s, b⟩ = (errorResponse "Invalid user ID" 400, db)) ∧
    (∀ id, Atoi s = some id → ¬ db.hasId id →
      respond getUser db ⟨m, "/users/" ++ s, b⟩ = (errorResponse "User not found" 404, db)) ∧
    (s = "" ∨ '/' ∈ s.data → Atoi s = none) := by
  refine ⟨respond_getUser_invalid db m s b, ?_, ?_⟩
  · intro id hid hno
    exact respond_getUser_missing db m s b id hid (find_none_of_not_hasId db id hno)
  · intro h
    rcases h with h | h
    · subst h
      rfl
    · exact Atoi_slash s h

theorem getUser_failures_witness :
    (Atoi "1/2" = none ∧
      respond getUser ⟨[⟨1, "Ana", "ana@x.com"⟩], []⟩ ⟨"GET", "/users/" ++ "1/2", .invalid⟩
        = (errorResponse "Invalid user ID" 400, ⟨[⟨1, "Ana", "ana@x.com"⟩], []⟩)) ∧
    (Atoi "7" = some 7 ∧ ¬ DB.hasId ⟨[⟨1, "Ana", "ana@x.com"⟩], []⟩ 7 ∧
      respond getUser ⟨[⟨1, "Ana", "ana@x.com"⟩], []⟩ ⟨"GET", "/users/" ++ "7", .invalid⟩
        = (errorResponse "User not found" 404, ⟨[⟨1, "Ana", "ana@x.com"⟩], []⟩)) ∧
    (('/' ∈ "1/2".data) ∧ Atoi "1/2" = none) :=
  ⟨⟨by decide,
      (getUser_failures ⟨[⟨1, "Ana", "ana@x.com"⟩], []⟩ "GET" "1/2" .invalid).1 (by decide)⟩,
    ⟨by decide, by decide,
      (getUser_failures ⟨[⟨1, "Ana", "ana@x.com"⟩], []⟩ "GET" "7" .invalid).2.1 7 (by decide)
        (by decide)⟩,
    ⟨by decide,
      (getUser_failures ⟨[⟨1, "Ana", "ana@x.com"⟩], []⟩ "GET" "1/2" .invalid).2.2
        (Or.inr (by decide))⟩⟩

/-! ## Update -/

theorem update_find (rows : List User) (i : Int) (n e : String) (h : ∃ u ∈ rows, u.ID = i) :
    (rows.map (fun x => if x.ID = i then { x with Name := n, Email := e } else x)).find?
      (fun u => u.ID = i) = some ⟨i, n, e⟩ := by
  induction rows with
  | nil =>
    obtain ⟨u, hu, _⟩ := h
    exact absurd hu (List.not_mem_nil u)
  | cons a as ih =>
    by_cases ha : a.ID = i
    · simp [List.find?_cons, ha]
    · have hrest : ∃ u ∈ as, u.ID = i := by
        obtain ⟨u, hu, hui⟩ := h
        rw [List.mem_cons] at hu
        rcases hu with hu | hu
        · subst hu
          exact absurd hui ha
        · exact ⟨u, hu, hui⟩
      simp only [List.map_cons, ha, if_false, List.find?_cons, decide_False]
      exact ih hrest

theorem update_filter (rows : List User) (i : Int) (n e : String) :
    (rows.map (fun x => if x.ID = i then { x with Name := n, Email := e } else x)).filter
      (fun u => u.ID ≠ i) = rows.filter (fun u => u.ID ≠ i) := by
  induction rows with
  | nil => rfl
  | cons a as ih =>
    by_cases ha : a.ID = i
    · simp only [List.map_cons, ha, if_true, List.filter_cons, ne_eq, not_true_eq_false,
        decide_False]
      exact ih
    · simp only [List.map_cons, ha, if_false, List.filter_cons, ne_eq, not_false_eq_true,
        decide_True, if_true]
      rw [ih]

theorem update_ids (rows : List User) (i : Int) (n e : String) :
    (rows.map (fun x => if x.ID = i then { x with Name := n, Email := e } else x)).map User.ID
      = rows.map User.ID := by
  induction rows with
  | nil => rfl
  | cons a as ih =>
    by_cases ha : a.ID = i
    · simp only [List.map_cons, ha, if_true]
      rw [ih]
    · simp only [List.map_cons, ha, if_false]
      rw [ih]

theorem update_missing (rows : List User) (i : Int) (n e : String)
    (h : ¬ ∃ u ∈ rows, u.ID = i) :
    rows.map (fun x => if x.ID = i then { x with Name := n, Email := e } else x) = rows := by
  induction rows with
  | nil => rfl
  | cons a as ih =>
    have ha : a.ID ≠ i := fun hai => h ⟨a, List.mem_cons_self a as, hai⟩
    have hrest : ¬ ∃ u ∈ as, u.ID = i := fun ⟨u, hu, hui⟩ =>
      h ⟨u, List.mem_cons_of_mem a hu, hui⟩
    simp only [List.map_cons, ha, if_false]
    rw [ih hrest]

/-- C5. Update overwrites in place: on a well-formed table with a row of id `i`, `updateUser`
on `/users/i` with a body that decodes to name `n` and email `e` answers 200 with an empty body;
a following `getUser` on `/users/i` answers 200 with the user `(i, n, e)`; the rows with another
id are the same rows in the same order, and the ids of the table are the same list. -/
theorem update_overwrites (db : DB) (hwf : db.WF) (i : Int) (hi : db.hasId i) (m : String)
    (bodyId : Int) (n e : String) (gm : String) (gb : ReqBody) :
    (respond updateUser db ⟨m, "/users/" ++ Itoa i, .decodes ⟨bodyId, n, e⟩⟩).1
      = ⟨200, jsonHeader, []⟩ ∧
    respond getUser (respond updateUser db ⟨m, "/users/" ++ Itoa i, .decodes ⟨bodyId, n, e⟩⟩).2
        ⟨gm, "/users/" ++ Itoa i, gb⟩ =
      (⟨200, jsonHeader, [.json (.object ⟨i, n, e⟩)]⟩,
        (respond updateUser db ⟨m, "/users/" ++ Itoa i, .decodes ⟨bodyId, n, e⟩⟩).2) ∧
    (respond updateUser db ⟨m, "/users/" ++ Itoa i, .decodes ⟨bodyId, n, e⟩⟩).2.rows.filter
        (fun u => u.ID ≠ i) = db.rows.filter (fun u => u.ID ≠ i) ∧
    (respond updateUser db ⟨m, "/users/" ++ Itoa i, .decodes ⟨bodyId, n, e⟩⟩).2.ids = db.ids := by
  obtain ⟨u, hu, hui⟩ := hi
  have hr := hwf.2 u hu
  rw [hui] at hr
  have hat := Atoi_Itoa i hr.1 hr.2
  rw [respond_updateUser_ok db m (Itoa i) _ i hat]
  refine ⟨rfl, ?_, update_filter db.rows i n e, update_ids db.rows i n e⟩
  exact respond_getUser_found _ gm (Itoa i) gb i ⟨i, n, e⟩ hat
    (update_find db.rows i n e ⟨u, hu, hui⟩)

theorem update_overwrites_witness :
    DB.WF ⟨[⟨1, "Ana", "ana@x.com"⟩, ⟨2, "Bo", "bo@x.com"⟩], []⟩ ∧
    DB.hasId ⟨[⟨1, "Ana", "ana@x.com"⟩, ⟨2, "Bo", "bo@x.com"⟩], []⟩ 1 ∧
    respond getUser (respond updateUser ⟨[⟨1, "Ana", "ana@x.com"⟩, ⟨2, "Bo", "bo@x.com"⟩], []⟩
        ⟨"PUT", "/users/" ++ Itoa 1, .decodes ⟨0, "Ana B", "ab@x.com"⟩⟩).2
        ⟨"GET", "/users/" ++ Itoa 1, .invalid⟩ =
      (⟨200, jsonHeader, [.json (.object ⟨1, "Ana B", "ab@x.com"⟩)]⟩,
        (respond updateUser ⟨[⟨1, "Ana", "ana@x.com"⟩, ⟨2, "Bo", "bo@x.com"⟩], []⟩
          ⟨"PUT", "/users/" ++ Itoa 1, .decodes ⟨0, "Ana B", "ab@x.com"⟩⟩).2) :=
  ⟨by decide, by decide,
    (update_overwrites ⟨[⟨1, "Ana", "ana@x.com"⟩, ⟨2, "Bo", "bo@x.com"⟩], []⟩ (by decide) 1
      (by decide) "PUT" 0 "Ana B" "ab@x.com" "GET" .invalid).2.1⟩

/-- C6. Update of a missing id: for every table, every 64-bit id `i` that no row has and every
decodable body, `updateUser` on `/users/i` answers 200 with an empty body and the table
afterwards is equal to the table before. -/
theorem update_missing_is_noop (db : DB) (i : Int) (hlo : minInt64 ≤ i) (hhi : i ≤ maxInt64)
    (hno : ¬ db.hasId i) (m : String) (u : User) :
    respond updateUser db ⟨m, "/users/" ++ Itoa i, .decodes u⟩ = (⟨200, jsonHeader, []⟩, db) := by
  rw [respond_updateUser_ok db m (Itoa i) u i (Atoi_Itoa i hlo hhi),
    update_missing db.rows i u.Name u.Email hno]

theorem update_missing_is_noop_witness :
    (minInt64 ≤ 5 ∧ (5 : Int) ≤ maxInt64 ∧ ¬ DB.hasId ⟨[⟨1, "Ana", "ana@x.com"⟩], []⟩ 5) ∧
    respond updateUser ⟨[⟨1, "Ana", "ana@x.com"⟩], []⟩
        ⟨"PUT", "/users/" ++ Itoa 5, .decodes ⟨0, "Bo", "bo@x.com"⟩⟩
      = (⟨200, jsonHeader, []⟩, ⟨[⟨1, "Ana", "ana@x.com"⟩], []⟩) :=
  ⟨by decide,
    update_missing_is_noop ⟨[⟨1, "Ana", "ana@x.com"⟩], []⟩ 5 (by decide) (by decide) (by decide)
      "PUT" ⟨0, "Bo", "bo@x.com"⟩⟩

/-! ## Delete -/

theorem delete_missing (rows : List User) (i : Int) (h : ¬ ∃ u ∈ rows, u.ID = i) :
    rows.filter (fun u => u.ID ≠ i) = rows := by
  rw [List.filter_eq_self]
  intro a ha
  simp only [ne_eq, decide_not, Bool.not_eq_true', decide_eq_false_iff_not]
  exact fun hai => h ⟨a, ha, hai⟩

/-- C7. Delete: for every table and every 64-bit id `i`, `deleteUser` on `/users/i` answers 200
with an empty body, whether or not a row has id `i`; a following `getUser` on `/users/i` answers
404; a row with another id is in the table afterwards exactly when it was before, and the rows
keep their order; when no row had id `i` the table is unchanged. -/
theorem delete_then_get (db : DB) (i : Int) (hlo : minInt64 ≤ i) (hhi : i ≤ maxInt64)
    (m : String) (b : ReqBody) (gm : String) (gb : ReqBody) :
    (respond deleteUser db ⟨m, "/users/" ++ Itoa i, b⟩).1 = ⟨200, jsonHeader, []⟩ ∧
    respond getUser (respond deleteUser db ⟨m, "/users/" ++ Itoa i, b⟩).2
        ⟨gm, "/users/" ++ Itoa i, gb⟩ =
      (errorResponse "User not found" 404,
        (respond deleteUser db ⟨m, "/users/" ++ Itoa i, b⟩).2) ∧
    (∀ u : User, u.ID ≠ i →
      (u ∈ (respond deleteUser db ⟨m, "/users/" ++ Itoa i, b⟩).2.rows ↔ u ∈ db.rows)) ∧
    List.Sublist (respond deleteUser db ⟨m, "/users/" ++ Itoa i, b⟩).2.rows db.rows ∧
    (¬ db.hasId i → (respond deleteUser db ⟨m, "/users/" ++ Itoa i, b⟩).2 = db) := by
  have hat := Atoi_Itoa i hlo hhi
  rw [respond_deleteUser_ok db m (Itoa i) b i hat]
  refine ⟨rfl, ?_, ?_, List.filter_sublist _, ?_⟩
  · apply respond_getUser_missing _ gm (Itoa i) gb i hat
    apply find_none_of_not_hasId
    rintro ⟨u, hu, hui⟩
    simp only [List.mem_filter, ne_eq, decide_not, Bool.not_eq_true', decide_eq_false_iff_not]
      at hu
    exact hu.2 hui
  · intro u hui
    simp only [List.mem_filter, ne_eq, decide_not, Bool.not_eq_true', decide_eq_false_iff_not]
    exact ⟨fun h => h.1, fun h => ⟨h, hui⟩⟩
  · intro hno
    show DB.mk _ _ = db
    rw [delete_missing db.rows i hno]

theorem delete_then_get_witness :
    (minInt64 ≤ 1 ∧ (1 : Int) ≤ maxInt64) ∧
    respond getUser (respond deleteUser ⟨[⟨1, "Ana", "ana@x.com"⟩, ⟨2, "Bo", "bo@x.com"⟩], []⟩
        ⟨"DELETE", "/users/" ++ Itoa 1, .invalid⟩).2 ⟨"GET", "/users/" ++ Itoa 1, .invalid⟩ =
      (errorResponse "User not found" 404,
        (respond deleteUser ⟨[⟨1, "Ana", "ana@x.com"⟩, ⟨2, "Bo", "bo@x.com"⟩], []⟩
          ⟨"DELETE", "/users/" ++ Itoa 1, .invalid⟩).2) :=
  ⟨by decide,
    (delete_then_get ⟨[⟨1, "Ana", "ana@x.com"⟩, ⟨2, "Bo", "bo@x.com"⟩], []⟩ 1 (by decide)
      (by decide) "DELETE" .invalid "GET" .invalid).2.1⟩

/-! ## Method not allowed -/

theorem users_slash_path (s : String) :
    "/users/" ++ s ≠ "/users" ∧ "/users/" ++ s ≠ "*" ∧
      "/users/".data.isPrefixOf ("/users/" ++ s).data = true := by
  have h : ("/users/" ++ s).data = "/users/".data ++ s.data := String.data_append _ _
  have h7 : "/users/".data.length = 7 := rfl
  refine ⟨?_, ?_, ?_⟩
  · intro heq
    have hlen : ("/users/" ++ s).data.length = "/users".data.length := by rw [heq]
    have h6 : "/users".data.length = 6 := rfl
    rw [h, List.length_append, h7, h6] at hlen
    omega
  · intro heq
    have hlen : ("/users/" ++ s).data.length = "*".data.length := by rw [heq]
    have h1 : "*".data.length = 1 := rfl
    rw [h, List.length_append, h7, h1] at hlen
    omega
  · rw [h]
    have hd : "/users/".data = ['/', 'u', 's', 'e', 'r', 's', '/'] := rfl
    rw [hd]
    simp [List.isPrefixOf]

/-- C9, on the paths that reach a route. A request on the path `/users` whose method is neither
GET nor POST, and a request on a path that begins with `/users/`, that the mux leaves as it is
(the path is clean, or the method is CONNECT) and whose method is none of GET, PUT and DELETE,
is answered 405 with the body `Method not allowed` followed by a newline and nothing else; the
mux returns what the single call of `http.Error` returns, on any writer, so that no handler
runs, and the table is unchanged. -/
theorem method_not_allowed (db : DB) (r : Request) (w : ResponseWriter) (q : String → String)
    (h : (r.Path = "/users" ∧ r.Method ≠ "GET" ∧ r.Method ≠ "POST") ∨
      ((∃ s, r.Path = "/users/" ++ s) ∧ (r.Method = "CONNECT" ∨ cleanPath r.Path = r.Path) ∧
        r.Method ≠ "GET" ∧ r.Method ≠ "PUT" ∧ r.Method ≠ "DELETE")) :
    serve db r = (errorResponse "Method not allowed" 405, db) ∧
    (serve db r).1.status = 405 ∧
    (serve db r).1.bodyText q = "Method not allowed\n" ∧
    DefaultServeMux w r db = (httpError w "Method not allowed" 405, db) := by
  have hmux : ∀ w1 : ResponseWriter,
      DefaultServeMux w1 r db = (httpError w1 "Method not allowed" 405, db) := by
    intro w1
    rcases h with ⟨hp, hg, hpost⟩ | ⟨⟨s, hs⟩, hclean, hg, hput, hdel⟩
    · have hstar : r.Path ≠ "*" := by rw [hp]; decide
      have hc : ¬ (r.Method ≠ "CONNECT" ∧ cleanPath r.Path ≠ r.Path) := by
        rw [hp]
        intro hcon
        exact hcon.2 (by decide)
      simp only [DefaultServeMux, hstar, hc, if_false]
      simp only [hp, if_true, usersRoute, hg, hpost, if_false]
    · have hps := users_slash_path s
      have hstar : r.Path ≠ "*" := by rw [hs]; exact hps.2.1
      have hc : ¬ (r.Method ≠ "CONNECT" ∧ cleanPath r.Path ≠ r.Path) := by
        intro hcon
        rcases hclean with hm | hcl
        · exact hcon.1 hm
        · exact hcon.2 hcl
      simp only [DefaultServeMux, hstar, hc, if_false]
      simp only [hs, hps.1, hps.2.2, if_true, if_false, userRoute, hg, hput, hdel]
  have hserve : serve db r = (errorResponse "Method not allowed" 405, db) := by
    simp only [serve, respond_eq, hmux, finish_httpError]
  refine ⟨hserve, ?_, ?_, hmux w⟩
  · rw [hserve]
    rfl
  · rw [hserve]
    rfl

theorem method_not_allowed_witness :
    (serve ⟨[⟨1, "Ana", "ana@x.com"⟩], []⟩ ⟨"DELETE", "/users", .invalid⟩
        = (errorResponse "Method not allowed" 405, ⟨[⟨1, "Ana", "ana@x.com"⟩], []⟩)) ∧
    (cleanPath ("/users/" ++ "1") = "/users/" ++ "1" ∧
      serve ⟨[⟨1, "Ana", "ana@x.com"⟩], []⟩ ⟨"POST", "/users/" ++ "1", .decodes ⟨0, "Bo", "b"⟩⟩
        = (errorResponse "Method not allowed" 405, ⟨[⟨1, "Ana", "ana@x.com"⟩], []⟩)) :=
  ⟨(method_not_allowed ⟨[⟨1, "Ana", "ana@x.com"⟩], []⟩ ⟨"DELETE", "/users", .invalid⟩ newWriter
      id (Or.inl ⟨rfl, by decide, by decide⟩)).1,
    by decide,
    (method_not_allowed ⟨[⟨1, "Ana", "ana@x.com"⟩], []⟩
      ⟨"POST", "/users/" ++ "1", .decodes ⟨0, "Bo", "b"⟩⟩ newWriter id
      (Or.inr ⟨⟨"1", rfl⟩, Or.inr (by decide), by decide, by decide, by decide⟩)).1⟩

/-- C9, as stated, fails: `PATCH /users//1` has a path that begins with `/users/` and a method
that is none of GET, PUT and DELETE, yet the mux answers it with a redirect (301, empty body)
to `/users/1` and never reaches the route that would answer 405. -/
theorem method_not_allowed_not_on_unclean_path :
    "/users//1" = "/users/" ++ "/1" ∧
    (serve ⟨[], []⟩ ⟨"PATCH", "/users//1", .invalid⟩).1.status = 301 ∧
    (serve ⟨[], []⟩ ⟨"PATCH", "/users//1", .invalid⟩).1.status ≠ 405 ∧
    (serve ⟨[], []⟩ ⟨"PATCH", "/users//1", .invalid⟩).1.body = [] ∧
    Header.Get (serve ⟨[], []⟩ ⟨"PATCH", "/users//1", .invalid⟩).1.header "Location"
      = some "/users/1" := by
  decide

/-! ## Create ignores the id of the body -/

theorem newRowid_below_max (rows : List User) (d1 d2 : List Int)
    (h : ∀ u, rows.getLast? = some u → u.ID < maxInt64) :
    (newRowid ⟨rows, d1⟩).1 = (newRowid ⟨rows, d2⟩).1 ∧ (newRowid ⟨rows, d1⟩).1 ≠ none := by
  unfold newRowid
  cases hl : rows.getLast? with
  | none => simp
  | some u => simp [h u hl]

theorem respond_createUser_eq (db : DB) (m p : String) (u : User) :
    respond createUser db ⟨m, p, .decodes u⟩ =
      match newRowid db with
      | (some v, ds) =>
        (createdResponse ⟨v, u.Name, u.Email⟩, ⟨insertRow ⟨v, u.Name, u.Email⟩ db.rows, ds⟩)
      | (none, ds) => (errorResponse "database or disk is full" 500, ⟨db.rows, ds⟩) := by
  rcases hnr : newRowid db with ⟨o, ds⟩
  cases o with
  | none => exact respond_createUser_full db m p u ds hnr
  | some v => exact respond_createUser_ok db m p u v ds hnr

/-- C10, with the random rowid set apart. Two bodies that decode to the same name and email
and to any two ids (0 when the field is absent) give the same response and the same database
when the generator of the store is in the same state; when the largest rowid of the table is
below 9223372036854775807 (or the table is empty) the generator is not consulted, and the
response and the rows are the same whatever its state; and when the answer is 201, the id in the
response is the rowid the table handed out, and the row added to the table carries that id. -/
theorem create_ignores_body_id (db : DB) (m p : String) (id1 id2 : Int) (n e : String) :
    respond createUser db ⟨m, p, .decodes ⟨id1, n, e⟩⟩
      = respond createUser db ⟨m, p, .decodes ⟨id2, n, e⟩⟩ ∧
    (∀ d2 : List Int, (∀ u, db.rows.getLast? = some u → u.ID < maxInt64) →
      (respond createUser ⟨db.rows, d2⟩ ⟨m, p, .decodes ⟨id2, n, e⟩⟩).1
        = (respond createUser db ⟨m, p, .decodes ⟨id1, n, e⟩⟩).1 ∧
      (respond createUser ⟨db.rows, d2⟩ ⟨m, p, .decodes ⟨id2, n, e⟩⟩).2.rows
        = (respond createUser db ⟨m, p, .decodes ⟨id1, n, e⟩⟩).2.rows ∧
      (respond createUser db ⟨m, p, .decodes ⟨id1, n, e⟩⟩).1.status = 201) ∧
    ((respond createUser db ⟨m, p, .decodes ⟨id1, n, e⟩⟩).1.status = 201 →
      ∃ v, (newRowid db).1 = some v ∧
        (respond createUser db ⟨m, p, .decodes ⟨id1, n, e⟩⟩).1.user? = some ⟨v, n, e⟩ ∧
        (respond createUser db ⟨m, p, .decodes ⟨id1, n, e⟩⟩).2.rows
          = insertRow ⟨v, n, e⟩ db.rows) := by
  refine ⟨?_, ?_, ?_⟩
  · rw [respond_createUser_eq, respond_createUser_eq]
  · intro d2 hbelow
    have hb := newRowid_below_max db.rows db.draws d2 hbelow
    rw [respond_createUser_eq, respond_createUser_eq]
    rcases h1 : newRowid db with ⟨o1, ds1⟩
    rcases h2 : newRowid ⟨db.rows, d2⟩ with ⟨o2, ds2⟩
    have hdb : (⟨db.rows, db.draws⟩ : DB) = db := rfl
    rw [hdb, h1, h2] at hb
    simp only at hb
    cases o1 with
    | none => exact absurd rfl hb.2
    | some v =>
      rw [← hb.1]
      exact ⟨rfl, rfl, rfl⟩
  · intro h201
    rw [respond_createUser_eq] at h201 ⊢
    rcases h1 : newRowid db with ⟨o1, ds1⟩
    rw [h1] at h201
    cases o1 with
    | none => exact absurd h201 (by simp [errorResponse])
    | some v => exact ⟨v, rfl, rfl, rfl⟩

theorem create_ignores_body_id_witness :
    ((∀ u, ([⟨4, "Ana", "ana@x.com"⟩] : List User).getLast? = some u → u.ID < maxInt64) ∧
      (respond createUser ⟨[⟨4, "Ana", "ana@x.com"⟩], [8]⟩
          ⟨"POST", "/users", .decodes ⟨0, "Bo", "bo@x.com"⟩⟩).1
        = (respond createUser ⟨[⟨4, "Ana", "ana@x.com"⟩], []⟩
          ⟨"POST", "/users", .decodes ⟨99, "Bo", "bo@x.com"⟩⟩).1) ∧
    ((respond createUser ⟨[⟨4, "Ana", "ana@x.com"⟩], []⟩
        ⟨"POST", "/users", .decodes ⟨99, "Bo", "bo@x.com"⟩⟩).1.status = 201 ∧
      ∃ v, (newRowid ⟨[⟨4, "Ana", "ana@x.com"⟩], []⟩).1 = some v ∧
        (respond createUser ⟨[⟨4, "Ana", "ana@x.com"⟩], []⟩
          ⟨"POST", "/users", .decodes ⟨99, "Bo", "bo@x.com"⟩⟩).1.user?
            = some ⟨v, "Bo", "bo@x.com"⟩ ∧
        (respond createUser ⟨[⟨4, "Ana", "ana@x.com"⟩], []⟩
          ⟨"POST", "/users", .decodes ⟨99, "Bo", "bo@x.com"⟩⟩).2.rows
            = insertRow ⟨v, "Bo", "bo@x.com"⟩ [⟨4, "Ana", "ana@x.com"⟩]) :=
  ⟨⟨by decide,
      ((create_ignores_body_id ⟨[⟨4, "Ana", "ana@x.com"⟩], []⟩ "POST" "/users" 99 0 "Bo"
        "bo@x.com").2.1 [8] (by decide)).1⟩,
    ⟨by decide,
      (create_ignores_body_id ⟨[⟨4, "Ana", "ana@x.com"⟩], []⟩ "POST" "/users" 99 0 "Bo"
        "bo@x.com").2.2 (by decide)⟩⟩

/-- C10, as stated, fails on a table whose largest rowid is 9223372036854775807: the store
picks the new rowid at random, so two bodies with the same name and email that differ only in
`id` are answered 201 with two different ids (neither taken from a body), and leave two
different tables. -/
theorem create_differs_at_largest_rowid :
    (respond createUser ⟨[⟨9223372036854775807, "Ana", "ana@x.com"⟩], [3453750984543747895]⟩
      ⟨"POST", "/users", .decodes ⟨1, "Bo", "bo@x.com"⟩⟩).1
      = createdResponse ⟨3453750984543747896, "Bo", "bo@x.com"⟩ ∧
    (respond createUser ⟨[⟨9223372036854775807, "Ana", "ana@x.com"⟩], [3195766742046012974]⟩
      ⟨"POST", "/users", .decodes ⟨2, "Bo", "bo@x.com"⟩⟩).1
      = createdResponse ⟨3195766742046012975, "Bo", "bo@x.com"⟩ ∧
    (respond createUser ⟨[⟨9223372036854775807, "Ana", "ana@x.com"⟩], [3453750984543747895]⟩
      ⟨"POST", "/users", .decodes ⟨1, "Bo", "bo@x.com"⟩⟩).1
      ≠ (respond createUser ⟨[⟨9223372036854775807, "Ana", "ana@x.com"⟩], [3195766742046012974]⟩
        ⟨"POST", "/users", .decodes ⟨2, "Bo", "bo@x.com"⟩⟩).1 ∧
    (respond createUser ⟨[⟨9223372036854775807, "Ana", "ana@x.com"⟩], [3453750984543747895]⟩
      ⟨"POST", "/users", .decodes ⟨1, "Bo", "bo@x.com"⟩⟩).2.rows
      ≠ (respond createUser ⟨[⟨9223372036854775807, "Ana", "ana@x.com"⟩], [3195766742046012974]⟩
        ⟨"POST", "/users", .decodes ⟨2, "Bo", "bo@x.com"⟩⟩).2.rows := by
  decide

/-! ## Listing after creates -/

theorem foldl_goAppend_some (rows l : List User) :
    rows.foldl goAppend (some l) = some (l ++ rows) := by
  induction rows generalizing l with
  | nil => simp
  | cons a as ih =>
    simp only [List.foldl_cons, goAppend]
    rw [ih]
    simp

theorem foldl_goAppend_none (a : User) (as : List User) :
    (a :: as).foldl goAppend none = some (a :: as) := by
  simp only [List.foldl_cons, goAppend]
  rw [foldl_goAppend_some]
  rfl

theorem createAll_spec (bodies : List User) : ∀ db : DB, db.WF →
    (∀ resp ∈ (createAll db (bodies.map ReqBody.decodes)).1, resp.status = 201) →
    ∃ cs : List User,
      (createAll db (bodies.map ReqBody.decodes)).2.rows.Perm (db.rows ++ cs) ∧
      (createAll db (bodies.map ReqBody.decodes)).2.WF ∧
      (createAll db (bodies.map ReqBody.decodes)).1 = cs.map createdResponse ∧
      cs.map User.Name = bodies.map User.Name ∧
      cs.map User.Email = bodies.map User.Email := by
  induction bodies with
  | nil =>
    intro db hwf _
    refine ⟨[], ?_, hwf, rfl, rfl, rfl⟩
    simp [createAll]
  | cons b bs ih =>
    intro db hwf h201
    rcases hnr : newRowid db with ⟨o, ds⟩
    cases o with
    | none =>
      have hhead := h201 (respond createUser db ⟨"POST", "/users", .decodes b⟩).1
        (by simp [createAll])
      rw [respond_createUser_full db _ _ _ ds hnr] at hhead
      exact absurd hhead (by simp [errorResponse])
    | some v =>
      have hstep := respond_createUser_ok db "POST" "/users" b v ds hnr
      have hwf1 := insert_WF db v ds b.Name b.Email hwf hnr
      have hrest : ∀ resp ∈ (createAll ⟨insertRow ⟨v, b.Name, b.Email⟩ db.rows, ds⟩
          (bs.map ReqBody.decodes)).1, resp.status = 201 := by
        intro resp hresp
        apply h201
        simp only [List.map_cons, createAll, hstep, List.mem_cons]
        exact Or.inr hresp
      obtain ⟨cs, hperm, hwf2, hresps, hname, hemail⟩ := ih _ hwf1 hrest
      refine ⟨⟨v, b.Name, b.Email⟩ :: cs, ?_, ?_, ?_, ?_, ?_⟩
      · simp only [List.map_cons, createAll, hstep]
        refine hperm.trans ?_
        refine ((insertRow_perm db.rows ⟨v, b.Name, b.Email⟩).append_right cs).trans ?_
        exact (List.perm_middle).symm
      · simpa only [List.map_cons, createAll, hstep] using hwf2
      · simp only [List.map_cons, createAll, hstep, hresps]
      · simp [hname]
      · simp [hemail]

theorem WF_ids_nodup (db : DB) (hwf : db.WF) : (db.rows.map User.ID).Nodup := by
  unfold List.Nodup
  rw [List.pairwise_map]
  exact hwf.1.imp (fun h => ne_of_lt h)

/-- Listing after one create or more. Starting from the empty table, after a non-empty run of
decodable `createUser` requests that each answered 201, `getUsers` answers 200 with a JSON array
`us`; the creates answered with the records `cs`, one per body and in the order of the bodies,
each with the name and email of its body; the array holds exactly the records of `cs`, and its
ids are pairwise distinct; the table is left as it is. -/
theorem list_after_creates (bodies : List User) (hne : bodies ≠ []) (d : List Int) (r : Request)
    (h201 : ∀ resp ∈ (createAll ⟨[], d⟩ (bodies.map ReqBody.decodes)).1, resp.status = 201) :
    ∃ us cs : List User,
      respond getUsers (createAll ⟨[], d⟩ (bodies.map ReqBody.decodes)).2 r =
        (⟨200, jsonHeader, [.json (.array us)]⟩,
          (createAll ⟨[], d⟩ (bodies.map ReqBody.decodes)).2) ∧
      (createAll ⟨[], d⟩ (bodies.map ReqBody.decodes)).1.map Response.user? = cs.map some ∧
      us.Perm cs ∧
      us.length = bodies.length ∧
      (us.map User.ID).Nodup ∧
      cs.map User.Name = bodies.map User.Name ∧
      cs.map User.Email = bodies.map User.Email := by
  obtain ⟨cs, hperm, hwf, hresps, hname, hemail⟩ :=
    createAll_spec bodies ⟨[], d⟩ (by constructor <;> simp) h201
  simp only [List.nil_append] at hperm
  have hlen : cs.length = bodies.length := by
    have := congrArg List.length hname
    simpa using this
  refine ⟨(createAll ⟨[], d⟩ (bodies.map ReqBody.decodes)).2.rows, cs, ?_, ?_, hperm, ?_,
    WF_ids_nodup _ hwf, hname, hemail⟩
  · rw [respond_getUsers]
    cases hrows : (createAll ⟨[], d⟩ (bodies.map ReqBody.decodes)).2.rows with
    | nil =>
      rw [hrows] at hperm
      have h0 : cs.length = 0 := by
        have := hperm.length_eq
        simpa using this.symm
      rw [hlen] at h0
      exact absurd (List.length_eq_zero.mp h0) hne
    | cons a as =>
      simp only [foldl_goAppend_none]
  · rw [hresps, List.map_map]
    apply List.map_congr_left
    intro u _
    rfl
  · rw [hperm.length_eq, hlen]

/-- C8. After zero creates on the empty table `getUsers` answers 200 with the JSON value `null`,
which is not a JSON array of zero records. -/
theorem list_after_zero_creates_not_array :
    (createAll ⟨[], []⟩ []).1 = [] ∧
    (respond getUsers (createAll ⟨[], []⟩ []).2 ⟨"GET", "/users", .invalid⟩).1.status = 200 ∧
    (respond getUsers (createAll ⟨[], []⟩ []).2 ⟨"GET", "/users", .invalid⟩).1.json?
      = some Json.null ∧
    (respond getUsers (createAll ⟨[], []⟩ []).2 ⟨"GET", "/users", .invalid⟩).1.json?
      ≠ some (Json.array []) := by
  decide

end CrudGo
